import Mathlib

/-!
Shallow embedding of the rag-search repository's core components, for checking
the natural-language specification against the code.

Embedded source files:
* `src/native_gemini_client.py` — the `NativeGeminiClient` ChatCompletionClient
  adapter (message conversion, tool-schema cleaning, transport with 429 retry,
  response parsing, usage counters, streaming variant);
* `src/ragflow_client.py` — `RagFlowClient.search` (fail-soft evidence search);
* `src/tools.py` — `retrieve_legal_documents`;
* `src/main.py` — the two-phase workflow driver (research phase, synthesis
  phase and the seed task handed to the synthesis phase).

Python JSON-ish values are modelled by the inductive type `JVal`; Python
exceptions relevant to the embedded code paths by `PyError`; fallible
computations by `Except`.
-/

namespace RagSearch

/-- A Python/JSON value: None, bool, int, str, list, dict (insertion-ordered
association list with distinct keys, as produced by `json` parsing). -/
inductive JVal where
  | null
  | bool (b : Bool)
  | num (n : Int)
  | str (s : String)
  | arr (xs : List JVal)
  | obj (kvs : List (String × JVal))

mutual

/-- Boolean equality on `JVal` (Python `==` between JSON values). -/
def JVal.beq : JVal → JVal → Bool
  | .null, .null => true
  | .bool a, .bool b => a == b
  | .num a, .num b => a == b
  | .str a, .str b => a == b
  | .arr xs, .arr ys => JVal.beqList xs ys
  | .obj xs, .obj ys => JVal.beqEntries xs ys
  | _, _ => false

/-- Elementwise `JVal.beq` on lists. -/
def JVal.beqList : List JVal → List JVal → Bool
  | [], [] => true
  | x :: xs, y :: ys => JVal.beq x y && JVal.beqList xs ys
  | _, _ => false

/-- Elementwise `JVal.beq` on dict entries. -/
def JVal.beqEntries : List (String × JVal) → List (String × JVal) → Bool
  | [], [] => true
  | (k, v) :: xs, (l, w) :: ys => k == l && JVal.beq v w && JVal.beqEntries xs ys
  | _, _ => false

end

/-- Python exceptions that the embedded code paths can raise. -/
inductive PyError where
  | keyError (k : String)
  | indexError
  | typeError
  | attributeError
deriving DecidableEq, Repr

/-- Python `d[k]` on a JSON value: key lookup on a dict (KeyError when
missing), TypeError on every non-dict value (string/list/int indexing with a
string key raises TypeError in Python). -/
def getKey : JVal → String → Except PyError JVal
  | .obj kvs, k =>
    match kvs.lookup k with
    | some v => .ok v
    | none => .error (.keyError k)
  | _, _ => .error .typeError

/-- Python `v[i]` for a non-negative int index: list indexing (IndexError when
out of range), string indexing (a one-character string, IndexError when out of
range), TypeError on dicts and scalars. -/
def getIndex : JVal → Nat → Except PyError JVal
  | .arr xs, i =>
    match xs[i]? with
    | some x => .ok x
    | none => .error .indexError
  | .str s, i =>
    match s.data[i]? with
    | some c => .ok (.str (String.mk [c]))
    | none => .error .indexError
  | _, _ => .error .typeError

/-- Python `k in v` for a string `k`: key containment on dicts, substring test
on strings, element equality on lists, TypeError otherwise. -/
def containsItem : JVal → String → Except PyError Bool
  | .obj kvs, k => .ok (kvs.any (fun kv => kv.1 == k))
  | .str s, k => .ok (decide (k.data <:+: s.data))
  | .arr xs, k => .ok (xs.any (fun x => JVal.beq x (.str k)))
  | _, _ => .error .typeError

/-- Python `v.get(k, d)` on a JSON value: default-lookup on a dict,
AttributeError on every non-dict value (lists/strings/ints have no `.get`). -/
def getDefault : JVal → String → JVal → Except PyError JVal
  | .obj kvs, k, d => .ok ((kvs.lookup k).getD d)
  | _, _, _ => .error .attributeError

/-- Python `for x in v`: a list yields its elements, a string its characters
(as one-character strings), a dict its keys; other values raise TypeError. -/
def pyIter : JVal → Except PyError (List JVal)
  | .arr xs => .ok xs
  | .str s => .ok (s.data.map (fun c => .str (String.mk [c])))
  | .obj kvs => .ok (kvs.map (fun kv => .str kv.1))
  | _ => .error .typeError

/-! ### Tool-schema cleaning (`clean_schema`, native_gemini_client.py 99–107)

The Python code is
`{k: clean_schema(v) for k, v in schema.items() if k not in ["title", "additionalProperties", "strict"]}`
for dicts, and the identity on every non-dict value.  Note that the code drops
three keys, `"strict"` included, and does not descend into list values. -/

/-- The keys `clean_schema` drops, exactly as listed in the source. -/
def bannedKeys : List String := ["title", "additionalProperties", "strict"]

mutual

/-- `clean_schema` from native_gemini_client.py: on a dict, drop the keys in
`bannedKeys` and recurse into the remaining values; return every non-dict
value unchanged. -/
def cleanSchema : JVal → JVal
  | .obj kvs => .obj (cleanSchemaEntries kvs)
  | v => v

/-- The dict comprehension inside `clean_schema`: filter out banned keys and
apply `clean_schema` to each kept value, preserving order. -/
def cleanSchemaEntries : List (String × JVal) → List (String × JVal)
  | [] => []
  | (k, v) :: rest =>
    if bannedKeys.contains k then cleanSchemaEntries rest
    else (k, cleanSchema v) :: cleanSchemaEntries rest

end

mutual

/-- Read of claim C5's wording, for comparison with the code: the input schema
with exactly the keys `"title"` and `"additionalProperties"` removed at every
nesting depth reachable through dict values. -/
def claimClean : JVal → JVal
  | .obj kvs => .obj (claimCleanEntries kvs)
  | v => v

/-- Entry cleaning for `claimClean`. -/
def claimCleanEntries : List (String × JVal) → List (String × JVal)
  | [] => []
  | (k, v) :: rest =>
    if k == "title" || k == "additionalProperties" then claimCleanEntries rest
    else (k, claimClean v) :: claimCleanEntries rest

end

/-! ### Transport and retry (native_gemini_client.py 31–59)

`_make_api_request` posts the payload and inspects the response: status 429
raises `RateLimitError`; `raise_for_status` raises `HTTPError` for every
status in [400, 600); otherwise the JSON body is returned (`response.json()`
raising a decode error when the body is not JSON).

`_make_api_request_with_retry` wraps it with
`retry(retry=retry_if_exception_type(RateLimitError), stop=stop_after_attempt(5), wait=wait_exponential(multiplier=2, min=2, max=60))`
from tenacity: only `RateLimitError` is retried, at most 5 attempts in total,
and the sleep after failed attempt number `n` is
`max(max(0, min), min(multiplier * 2^(n-1), max))`. -/

/-- An HTTP response as seen by `_make_api_request`: a status code and the
JSON body (`none` when `response.json()` would fail to parse). -/
structure HttpResponse where
  status : Nat
  body : Option JVal

/-- Errors out of the transport step. `rateLimit` is the adapter's
`RateLimitError` (the spec's RateLimitSignal); `httpStatus` is
`requests.exceptions.HTTPError` from `raise_for_status`; `jsonDecode` is a
body that `response.json()` cannot parse. -/
inductive RequestError where
  | rateLimit
  | httpStatus (code : Nat)
  | jsonDecode
deriving DecidableEq, Repr

/-- `_make_api_request`: raise `RateLimitError` on status 429, `HTTPError`
(via `raise_for_status`) on any other 4xx/5xx status, else return the parsed
JSON body. -/
def makeApiRequest (resp : HttpResponse) : Except RequestError JVal :=
  if resp.status == 429 then .error .rateLimit
  else if 400 ≤ resp.status ∧ resp.status < 600 then .error (.httpStatus resp.status)
  else
    match resp.body with
    | some j => .ok j
    | none => .error .jsonDecode

/-- tenacity `wait_exponential(multiplier, max, exp_base := 2, min)` evaluated
after failed attempt number `attemptNumber`:
`max(max(0, min), min(multiplier * 2^(attemptNumber - 1), max))`. -/
def waitExponential (multiplier mn mx attemptNumber : Nat) : Nat :=
  max (max 0 mn) (min (multiplier * 2 ^ (attemptNumber - 1)) mx)

/-- Result of the retried transport call. `exhausted` is tenacity's
`RetryError` after `stop_after_attempt` fired with the last attempt still
rate-limited (the spec's BackendError after retries); `failure` is any
non-retried exception propagating out of the first attempt that raised it. -/
inductive RetryResult where
  | success (data : JVal)
  | failure (e : RequestError)
  | exhausted

/-- One step of the tenacity loop: `attempt` is the 1-based number of the
current attempt, `fuel` the number of attempts still allowed (`stop_after_attempt`).
Returns the recorded sleep delays, in order, together with the outcome.
Only `RateLimitError` is retried; every other error propagates at once. -/
def runRetryAux (behavior : Nat → HttpResponse) (attempt : Nat) : Nat → List Nat × RetryResult
  | 0 => ([], .exhausted)
  | fuel + 1 =>
    match makeApiRequest (behavior attempt) with
    | .ok d => ([], .success d)
    | .error .rateLimit =>
      if fuel == 0 then ([], .exhausted)
      else
        let rest := runRetryAux behavior (attempt + 1) fuel
        (waitExponential 2 2 60 attempt :: rest.1, rest.2)
    | .error e => ([], .failure e)

/-- `_make_api_request_with_retry`: the tenacity-wrapped transport call, with
`behavior n` the HTTP response the backend would give to attempt `n`.
Returns the recorded backoff delays and the outcome. -/
def makeApiRequestWithRetry (behavior : Nat → HttpResponse) : List Nat × RetryResult :=
  runRetryAux behavior 1 5

/-! ### Message conversion (`create`, native_gemini_client.py 75–94)

The loop over `messages` recognises `SystemMessage` (string content, stored in
the `system_instruction` variable, overwriting any earlier value),
`UserMessage` (string content, or a multimodal list whose string parts are
joined), and `AssistantMessage` with string content.  Assistant messages whose
content is a list of function calls, and `FunctionExecutionResultMessage`
(tool results), match no branch and are skipped. -/

/-- One element of a multimodal `UserMessage` content list: a string part or a
non-string part (e.g. an image). -/
inductive UserContentItem where
  | text (s : String)
  | image
deriving DecidableEq, Repr

/-- The content of a `UserMessage`: a plain string or a multimodal list. -/
inductive UserContent where
  | text (s : String)
  | multi (items : List UserContentItem)
deriving DecidableEq, Repr

/-- The content of an `AssistantMessage`: a plain string or a list of
function calls (as AutoGen produces after a tool round). -/
inductive AssistantContent where
  | text (s : String)
  | functionCalls
deriving DecidableEq, Repr

/-- An AutoGen `LLMMessage` as consumed by `NativeGeminiClient.create`:
system, user, assistant, or tool-result (`FunctionExecutionResultMessage`,
carrying the tool outputs). -/
inductive LLMMessage where
  | system (content : String)
  | user (content : UserContent)
  | assistant (content : AssistantContent)
  | functionExecutionResult (results : List String)
deriving DecidableEq, Repr

/-- One entry of the Gemini `contents` list:
`{"role": role, "parts": [{"text": text}]}`. -/
structure GeminiContent where
  role : String
  text : String
deriving DecidableEq, Repr

/-- The string parts of a multimodal content list
(`[p for p in content if isinstance(p, str)]`). -/
def userItemText : UserContentItem → Option String
  | .text s => some s
  | .image => none

/-- The message loop of `create` (lines 79–94): threads the
`system_instruction` variable and the growing `gemini_contents` list through
the input messages. -/
def convertMessagesAux (sysInstr : Option String) (contents : List GeminiContent) :
    List LLMMessage → Option String × List GeminiContent
  | [] => (sysInstr, contents)
  | .system c :: rest => convertMessagesAux (some c) contents rest
  | .user (.text s) :: rest =>
    convertMessagesAux sysInstr (contents ++ [⟨"user", s⟩]) rest
  | .user (.multi items) :: rest =>
    convertMessagesAux sysInstr
      (contents ++ [⟨"user", String.join (items.filterMap userItemText)⟩]) rest
  | .assistant (.text s) :: rest =>
    convertMessagesAux sysInstr (contents ++ [⟨"model", s⟩]) rest
  | .assistant .functionCalls :: rest => convertMessagesAux sysInstr contents rest
  | .functionExecutionResult _ :: rest => convertMessagesAux sysInstr contents rest

/-- Message conversion in `create`: the final `system_instruction` (if any)
and the ordered `gemini_contents` list. -/
def convertMessages (msgs : List LLMMessage) : Option String × List GeminiContent :=
  convertMessagesAux none [] msgs

/-- The Gemini content entry a single non-system message contributes, if any:
used to state what the loop builds. -/
def nonSystemEntry : LLMMessage → Option GeminiContent
  | .user (.text s) => some ⟨"user", s⟩
  | .user (.multi items) => some ⟨"user", String.join (items.filterMap userItemText)⟩
  | .assistant (.text s) => some ⟨"model", s⟩
  | _ => none

/-- Contents of the system messages of a message list, in order. -/
def systemContents (msgs : List LLMMessage) : List String :=
  msgs.filterMap (fun m => match m with | .system c => some c | _ => none)

/-! ### Tool payload (`create`, native_gemini_client.py 96–140) -/

/-- A tool specification as resolved by the duck-typed
`getattr(t, "name", None) or t.get("name")` lookups: each field is the
resolved attribute-or-dict value (`none` models Python `None`). -/
structure ToolSpec where
  name : Option String
  description : Option String
  parameters : Option JVal

/-- Python truthiness of an optional string (`if name:`). -/
def pyTruthyStr : Option String → Bool
  | none => false
  | some s => !(s == "")

/-- Python truthiness of an optional JSON value (`if parameters:`). -/
def pyTruthyJVal : Option JVal → Bool
  | none => false
  | some .null => false
  | some (.bool b) => b
  | some (.num n) => !(n == 0)
  | some (.str s) => !(s == "")
  | some (.arr xs) => !xs.isEmpty
  | some (.obj kvs) => !kvs.isEmpty

/-- One entry of Gemini `function_declarations`:
`{"name": ..., "description": ..., "parameters": ...}`. -/
structure FunctionDeclaration where
  name : String
  description : Option String
  parameters : Option JVal

/-- The tool loop of `create` (lines 109–124): clean the parameters when
truthy, append a declaration when the name is truthy. -/
def buildFunctionDeclarations (tools : List ToolSpec) : List FunctionDeclaration :=
  tools.foldl
    (fun acc t =>
      let parameters := if pyTruthyJVal t.parameters then t.parameters.map cleanSchema else t.parameters
      if pyTruthyStr t.name then acc ++ [⟨t.name.getD "", t.description, parameters⟩]
      else acc)
    []

/-- `gemini_tools` (lines 97–127): empty unless `tools` is truthy and at least
one declaration was built, in which case one
`{"function_declarations": [...]}` wrapper is sent. -/
def buildGeminiTools (tools : List ToolSpec) : List (List FunctionDeclaration) :=
  if tools.isEmpty then []
  else
    let fds := buildFunctionDeclarations tools
    if fds.isEmpty then [] else [fds]

/-- The request payload assembled by `create` (lines 129–140). -/
structure GeminiPayload where
  contents : List GeminiContent
  tools : List (List FunctionDeclaration)
  systemInstruction : Option String

/-- Payload construction in `create`: converted messages, Gemini tools,
and the hoisted system instruction. -/
def buildPayload (msgs : List LLMMessage) (tools : List ToolSpec) : GeminiPayload :=
  let conv := convertMessages msgs
  ⟨conv.2, buildGeminiTools tools, conv.1⟩

/-! ### Response parsing (`create`, native_gemini_client.py 151–209)

The success payload is navigated as
`candidate = data["candidates"][0]`, `content_part = candidate["content"]["parts"][0]`,
`content_text = content_part["text"]` when present, one `FunctionCall` per
part carrying a `functionCall`, `candidate.get("finishReason", "STOP")` mapped
through `finish_reason_map`, and token counts from
`data.get("usageMetadata", {})`.  `KeyError`/`IndexError` are caught and
re-raised as `ValueError` (the spec's ProtocolError) after logging the raw
payload; every other exception (e.g. `TypeError`) escapes uncaught. -/

/-- An AutoGen `FunctionCall` produced by the parser.  In the source each call
gets `id=str(uuid.uuid4())` (random, not modelled) and
`arguments=json.dumps(fc["args"])`; the `args` value is carried structurally
here in place of its JSON serialization. -/
structure ParsedToolCall where
  name : JVal
  args : JVal

/-- The function-call collection loop (lines 163–170): one call per part that
contains a `functionCall`, in part order. -/
def collectToolCalls : List JVal → Except PyError (List ParsedToolCall)
  | [] => .ok []
  | part :: rest => do
    let b ← containsItem part "functionCall"
    let calls ←
      if b then do
        let fc ← getKey part "functionCall"
        let fname ← getKey fc "name"
        let fargs ← getKey fc "args"
        pure [ParsedToolCall.mk fname fargs]
      else pure []
    let more ← collectToolCalls rest
    pure (calls ++ more)

/-- `finish_reason_map.get(raw_finish_reason, "stop")` (lines 172–180): maps
the five known string reasons, defaults any other hashable value to
`"stop"`, and raises `TypeError` on unhashable values (lists, dicts). -/
def finishReasonOf (raw : JVal) : Except PyError String :=
  match raw with
  | .arr _ => .error .typeError
  | .obj _ => .error .typeError
  | .str s =>
    .ok (if s == "STOP" then "stop"
      else if s == "MAX_TOKENS" then "length"
      else if s == "SAFETY" then "content_filter"
      else if s == "RECITATION" then "content_filter"
      else if s == "OTHER" then "stop"
      else "stop")
  | _ => .ok "stop"

/-- AutoGen `RequestUsage`: the two token counters.  The parser fills them
from `usageMetadata` without type validation, so the fields are JSON
values (`0` by default). -/
structure RequestUsage where
  promptTokens : JVal
  completionTokens : JVal

/-- AutoGen `CreateResult` as built by the parser (lines 199–205). -/
structure CreateResult where
  content : JVal
  usage : RequestUsage
  finishReason : String
  cached : Bool
  toolCalls : List ParsedToolCall

/-- The parsing block inside the `try` (lines 152–205), with Python's
exception flow made explicit in `Except`. -/
def parseBody (data : JVal) : Except PyError CreateResult := do
  let candidates ← getKey data "candidates"
  let candidate ← getIndex candidates 0
  let contentVal ← getKey candidate "content"
  let parts ← getKey contentVal "parts"
  let contentPart ← getIndex parts 0
  let hasText ← containsItem contentPart "text"
  let contentText ← if hasText then getKey contentPart "text" else pure (JVal.str "")
  let partsSeq ← pyIter parts
  let toolCalls ← collectToolCalls partsSeq
  let rawFinish ← getDefault candidate "finishReason" (.str "STOP")
  let finishReason ← finishReasonOf rawFinish
  let usage ← getDefault data "usageMetadata" (.obj [])
  let promptTokens ← getDefault usage "promptTokenCount" (.num 0)
  let completionTokens ← getDefault usage "candidatesTokenCount" (.num 0)
  pure ⟨contentText, ⟨promptTokens, completionTokens⟩, finishReason, false, toolCalls⟩

/-- The ValueError raised by the `except (KeyError, IndexError)` handler
(lines 207–209), together with the diagnostic log line emitted just before
it: `logger.error` interpolates the raw payload, the ValueError message the
caught exception. -/
structure ProtocolError where
  loggedPayload : JVal
  cause : PyError

/-- Outcome of parsing a transport-success body. -/
inductive ParseOutcome where
  | ok (r : CreateResult)
  | protocolError (e : ProtocolError)
  | uncaught (e : PyError)

/-- The `try`/`except (KeyError, IndexError)` wrapper around the parsing
block: KeyError and IndexError become the ProtocolError; every other
exception escapes. -/
def parseResponse (data : JVal) : ParseOutcome :=
  match parseBody data with
  | .ok r => .ok r
  | .error (.keyError k) => .protocolError ⟨data, .keyError k⟩
  | .error .indexError => .protocolError ⟨data, .indexError⟩
  | .error e => .uncaught e

/-- A part of a well-shaped candidate: a dict whose `functionCall`, when
present, is a dict carrying `name` and `args`. -/
def wellFormedPart (p : JVal) : Bool :=
  match p with
  | .obj pkvs =>
    match pkvs.lookup "functionCall" with
    | none => true
    | some (.obj fkvs) => (fkvs.lookup "name").isSome && (fkvs.lookup "args").isSome
    | some _ => false
  | _ => false

/-- A well-formed Gemini success payload, per the response structure the
parser expects: a dict with a non-empty `candidates` list whose first
candidate holds `content.parts` as a non-empty list of well-shaped parts,
a string `finishReason` when present, and a dict `usageMetadata` when
present. -/
def wellFormedResponse (data : JVal) : Bool :=
  match data with
  | .obj dkvs =>
    (match dkvs.lookup "candidates" with
     | some (.arr (c :: _)) =>
       (match c with
        | .obj ckvs =>
          (match ckvs.lookup "content" with
           | some (.obj contentKvs) =>
             (match contentKvs.lookup "parts" with
              | some (.arr (p :: ps)) => (p :: ps).all wellFormedPart
              | _ => false)
           | _ => false)
          &&
          (match ckvs.lookup "finishReason" with
           | none => true
           | some (.str _) => true
           | some _ => false)
        | _ => false)
     | _ => false)
    &&
    (match dkvs.lookup "usageMetadata" with
     | none => true
     | some (.obj _) => true
     | some _ => false)
  | _ => false

/-! ### `create`, usage counters, and `create_stream`
(native_gemini_client.py 25–29, 145–213, 215–226, 229–230, 252–253) -/

/-- Outcome of one `create` call. `backendError` is a propagated
`requests` exception (HTTPError / JSON decode error); `retryError` is
tenacity's RetryError after five rate-limited attempts; both are the spec's
BackendError. -/
inductive CreateOutcome where
  | ok (r : CreateResult)
  | backendError (e : RequestError)
  | retryError
  | protocolError (e : ProtocolError)
  | uncaught (e : PyError)

/-- `self._total_usage = RequestUsage(prompt_tokens=0, completion_tokens=0)`
from `__init__` (line 29). -/
def initTotalUsage : RequestUsage := ⟨.num 0, .num 0⟩

/-- `NativeGeminiClient.create`: build the payload, issue the retried
transport call, parse the success body.  `st` is the client's
`_total_usage` field on entry; the returned `RequestUsage` is the field on
exit (the method never assigns it).  `behavior` abstracts the network: the
HTTP response to each attempt, given the request payload. -/
def create (st : RequestUsage) (msgs : List LLMMessage) (tools : List ToolSpec)
    (behavior : GeminiPayload → Nat → HttpResponse) : CreateOutcome × RequestUsage :=
  let payload := buildPayload msgs tools
  match (makeApiRequestWithRetry (behavior payload)).2 with
  | .success data =>
    match parseResponse data with
    | .ok r => (.ok r, st)
    | .protocolError e => (.protocolError e, st)
    | .uncaught e => (.uncaught e, st)
  | .failure e => (.backendError e, st)
  | .exhausted => (.retryError, st)

/-- `total_usage` (lines 252–253): returns `self._total_usage`. -/
def totalUsage (st : RequestUsage) : RequestUsage := st

/-- `actual_usage` (lines 229–230): returns `self._total_usage`. -/
def actualUsage (st : RequestUsage) : RequestUsage := st

/-- Outcome of one `create_stream` call: the chunks yielded by the async
generator, or the exception propagating out of the inner `create`. -/
inductive StreamOutcome where
  | chunks (cs : List JVal)
  | backendError (e : RequestError)
  | retryError
  | protocolError (e : ProtocolError)
  | uncaught (e : PyError)

/-- `NativeGeminiClient.create_stream` (lines 215–226): await the full
`create` result, then yield `result.content` as the single chunk. -/
def create_stream (st : RequestUsage) (msgs : List LLMMessage) (tools : List ToolSpec)
    (behavior : GeminiPayload → Nat → HttpResponse) : StreamOutcome × RequestUsage :=
  match create st msgs tools behavior with
  | (.ok r, st') => (.chunks [r.content], st')
  | (.backendError e, st') => (.backendError e, st')
  | (.retryError, st') => (.retryError, st')
  | (.protocolError e, st') => (.protocolError e, st')
  | (.uncaught e, st') => (.uncaught e, st')

/-! ### Evidence search (`RagFlowClient.search`, ragflow_client.py 25–120, and
`retrieve_legal_documents`, tools.py 24–35)

The whole body of `search` sits in one `try` whose `except Exception` returns
`EvidencePack(query=query, items=[], total_items=0)`.  Inside the try:
`requests.post` (transport errors raise), `raise_for_status` (4xx/5xx raise),
`response.json()` (unparseable bodies raise), then the `code == 0` /
`"data"` mapping across the three supported response shapes. -/

/-- What the RAGFlow endpoint did for one `requests.post` call: the request
raised (connection/timeout), or a response arrived with a status and a JSON
body (`none` when `response.json()` cannot parse it). -/
inductive RagOutcome where
  | transportError
  | response (status : Nat) (body : Option JVal)

/-- Exceptions that `search` can hit inside its `try` block, all absorbed by
the `except Exception` handler. -/
inductive RagFailure where
  | transportError
  | httpStatus (code : Nat)
  | jsonDecode
  | pyError (e : PyError)

/-- Python `data.get("code") == 0`: int 0 and bool False compare equal
to 0. -/
def pyEqIntZero : JVal → Bool
  | .num n => n == 0
  | .bool b => !b
  | _ => false

/-- `EvidenceItem` (schemas.py) as filled by `search`.  Field values are the
JSON values drawn from the chunk dict; pydantic's type validation of those
values is not modelled. -/
structure EvidenceItem where
  content : JVal
  documentName : JVal
  chunkId : JVal
  similarityScore : JVal
  originalMetadata : JVal

/-- `EvidencePack` (schemas.py). -/
structure EvidencePack where
  query : String
  items : List EvidenceItem
  totalItems : Nat

/-- Build one `EvidenceItem` from a chunk dict (ragflow_client.py 80–86,
91–97, 102–108).  `useKeyword` marks the `chunks` branch, whose document-name
fallback also tries `document_keyword`.  A non-dict `doc` raises
AttributeError at `doc.get`. -/
def docToItem (useKeyword : Bool) (doc : JVal) : Except PyError EvidenceItem :=
  match doc with
  | .obj dk =>
    .ok ⟨(dk.lookup "content_with_weight").getD ((dk.lookup "content").getD (.str "")),
      (dk.lookup "doc_name").getD
        (if useKeyword then (dk.lookup "document_keyword").getD (.str "Unknown Document")
         else .str "Unknown Document"),
      (dk.lookup "chunk_id").getD .null,
      (dk.lookup "similarity").getD .null,
      .obj dk⟩
  | _ => .error .attributeError

/-- The response-mapping block (ragflow_client.py 73–112): items are built
only when `code == 0` and `"data"` is present, across the `chunks`, legacy
list, and `docs` shapes; any unknown shape leaves `items` empty. -/
def ragItems (dkvs : List (String × JVal)) : Except PyError (List EvidenceItem) :=
  if (match dkvs.lookup "code" with | some v => pyEqIntZero v | none => false)
      && (dkvs.lookup "data").isSome then
    match (dkvs.lookup "data").getD .null with
    | .obj dc =>
      if (dc.lookup "chunks").isSome then do
        let docs ← pyIter ((dc.lookup "chunks").getD .null)
        docs.mapM (docToItem true)
      else if (dc.lookup "docs").isSome then do
        let docs ← pyIter ((dc.lookup "docs").getD .null)
        docs.mapM (docToItem false)
      else pure []
    | .arr docs => docs.mapM (docToItem false)
    | _ => pure []
  else pure []

/-- The `try` block of `search`: transport call, `raise_for_status`,
`response.json()`, then the mapping; `data.get` on a non-dict body raises
AttributeError. -/
def ragSearchInner (query : String) (outcome : RagOutcome) : Except RagFailure EvidencePack :=
  match outcome with
  | .transportError => .error .transportError
  | .response status body =>
    if 400 ≤ status ∧ status < 600 then .error (.httpStatus status)
    else
      match body with
      | none => .error .jsonDecode
      | some (.obj dkvs) =>
        match ragItems dkvs with
        | .ok items => .ok ⟨query, items, items.length⟩
        | .error e => .error (.pyError e)
      | some _ => .error (.pyError .attributeError)

/-- `RagFlowClient.search`: the `try` block with its `except Exception`
handler, which returns the empty pack for the same query (lines 115–120). -/
def ragSearch (query : String) (outcome : RagOutcome) : EvidencePack :=
  match ragSearchInner query outcome with
  | .ok pack => pack
  | .error _ => ⟨query, [], 0⟩

/-- `retrieve_legal_documents` (tools.py): delegates to `client.search` and
returns the pack (its `model_dump` dict form is identified with the pack). -/
def retrieveLegalDocuments (query : String) (outcome : RagOutcome) : EvidencePack :=
  ragSearch query outcome

/-! ### Two-phase workflow (`main`, main.py 36–77)

Phase 1 (research team) is started with
`task = f"Legal Query: {query}\nPlease plan and execute the research."`.
Phase 2 (synthesis team, a fresh `RoundRobinGroupChat` containing only the
synthesizer) is started with a `synthesis_task` template that interpolates
only `query`; `research_result`, the phase-1 transcript, is never used. -/

/-- The phase-1 seed task (main.py 52). -/
def researchTask (query : String) : String :=
  "Legal Query: " ++ query ++ "\nPlease plan and execute the research."

/-- The phase-2 seed task, `synthesis_task` (main.py 71–75). -/
def synthesisTask (query : String) : String :=
  "Based on the approved research above, produce the final legal research document.\n\nOriginal Query: "
    ++ query
    ++ "\n\nPlease synthesize a comprehensive, well-formatted legal brief with proper citations."

/-- The seed tasks `main` hands to the two orchestration phases, given the
query and the message contents the phase-1 run produced (the latter supplied
by the environment: agents and model backend).  Faithful to main.py, the
phase-2 seed is built from the query alone; `phase1Messages` is never
consulted. -/
def mainSeedTasks (query : String) (phase1Messages : List String) : String × String :=
  (researchTask query, synthesisTask query)

/-- Substring test on strings (for stating containment of transcript content
in a seed task). -/
def strContains (hay sub : String) : Bool :=
  decide (sub.data <:+: hay.data)

/-! ### Concrete inputs used to exercise the definitions -/

/-- A backend stub: throttled (429) on the first four attempts, success with
an empty JSON object on the fifth. -/
def retryStub : Nat → HttpResponse :=
  fun n => if n ≤ 4 then ⟨429, none⟩ else ⟨200, some (.obj [])⟩

/-- A well-formed Gemini success body: one candidate with one text part, a
`STOP` finish reason, and usage metadata of 5 prompt / 7 completion tokens. -/
def goodResponse : JVal :=
  .obj [("candidates", .arr [.obj [
          ("content", .obj [("parts", .arr [.obj [("text", .str "hello")]])]),
          ("finishReason", .str "STOP")]]),
        ("usageMetadata", .obj [("promptTokenCount", .num 5),
          ("candidatesTokenCount", .num 7)])]

/-- The `CreateResult` the parser builds from `goodResponse`. -/
def goodResult : CreateResult :=
  ⟨.str "hello", ⟨.num 5, .num 7⟩, "stop", false, []⟩

/-- A transport stub that always answers 200 with `goodResponse`. -/
def okBehavior : GeminiPayload → Nat → HttpResponse :=
  fun _ _ => ⟨200, some goodResponse⟩

/-- A one-user-message conversation. -/
def simpleMessages : List LLMMessage := [.user (.text "hi")]

/-- A conversation holding a user message followed by a tool-result message. -/
def toolResultMessages : List LLMMessage :=
  [.user (.text "hi"), .functionExecutionResult ["tool output"]]

/-- A conversation with two system messages around a user message. -/
def twoSystemMessages : List LLMMessage :=
  [.system "first instruction", .user (.text "hi"), .system "second instruction"]

/-- A schema carrying a `"strict"` key, which the claim does not list among
the removed keys. -/
def strictSchema : JVal := .obj [("strict", .bool true), ("type", .str "object")]

/-- A phase-1 transcript content for exercising the phase-2 seed task. -/
def phase1Sample : List String :=
  ["RESEARCH FINDINGS: mineral group III requires licensing ALPHA7"]

/-! ## Theorems -/

/-! ### Schema cleaning (claim C5) -/

/-- Key lookup after `cleanSchemaEntries`: banned keys are gone, every other
binding survives with a cleaned value. -/
theorem cleanSchemaEntries_lookup (kvs : List (String × JVal)) (k : String) :
    (cleanSchemaEntries kvs).lookup k =
      if bannedKeys.contains k then none else (kvs.lookup k).map cleanSchema := by
  induction kvs with
  | nil => simp [cleanSchemaEntries]
  | cons hd tl ih =>
    obtain ⟨k', v'⟩ := hd
    by_cases hb : k' ∈ bannedKeys
    · rw [show cleanSchemaEntries ((k', v') :: tl) = cleanSchemaEntries tl from by
        simp [cleanSchemaEntries, hb]]
      rw [ih]
      by_cases hk : k = k'
      · subst hk
        simp [List.lookup, hb]
      · have hkk : (k == k') = false := by simp [hk]
        simp [List.lookup, hkk]
    · rw [show cleanSchemaEntries ((k', v') :: tl) = (k', cleanSchema v') :: cleanSchemaEntries tl
        from by simp [cleanSchemaEntries, hb]]
      by_cases hk : k = k'
      · subst hk
        simp [List.lookup, hb]
      · have hkk : (k == k') = false := by simp [hk]
        simp only [List.lookup, hkk]
        rw [ih]

/-- Claim C5 counterexample: on a schema carrying a `"strict"` key, the
cleaned schema differs from the input with only `"title"` and
`"additionalProperties"` removed, because `clean_schema` also drops
`"strict"`. -/
theorem cleanSchema_strict_counterexample :
    cleanSchema strictSchema ≠ claimClean strictSchema := by
  have h1 : cleanSchema strictSchema = .obj [("type", .str "object")] := by
    simp [strictSchema, cleanSchema, cleanSchemaEntries, bannedKeys]
  have h2 : claimClean strictSchema = .obj [("strict", .bool true), ("type", .str "object")] := by
    simp [strictSchema, claimClean, claimCleanEntries]
  rw [h1, h2]
  simp

/-- Claim C5 (amended): the function-declaration schema sent to the backend is
the input schema with the keys `"title"`, `"additionalProperties"` and
`"strict"` removed at every nesting depth reachable through dict values
(non-dict values, list values included, are left unchanged). -/
theorem cleanSchema_removes_banned_keys :
    (∀ v : JVal, (∀ kvs, v ≠ .obj kvs) → cleanSchema v = v)
    ∧ (∀ kvs : List (String × JVal), cleanSchema (.obj kvs) = .obj (cleanSchemaEntries kvs))
    ∧ (∀ (kvs : List (String × JVal)) (k : String),
        (cleanSchemaEntries kvs).lookup k =
          if bannedKeys.contains k then none else (kvs.lookup k).map cleanSchema) := by
  refine ⟨?_, ?_, cleanSchemaEntries_lookup⟩
  · intro v hv
    cases v with
    | obj kvs => exact absurd rfl (hv kvs)
    | null => simp [cleanSchema]
    | bool b => simp [cleanSchema]
    | num n => simp [cleanSchema]
    | str s => simp [cleanSchema]
    | arr xs => simp [cleanSchema]
  · intro kvs
    simp [cleanSchema]

/-- Witness for `cleanSchema_removes_banned_keys` at concrete inputs. -/
theorem cleanSchema_removes_banned_keys_witness :
    cleanSchema (.arr [.obj [("title", .str "t")]]) = .arr [.obj [("title", .str "t")]]
    ∧ (cleanSchemaEntries [("strict", JVal.bool true), ("type", JVal.str "object")]).lookup "strict"
        = none
    ∧ (cleanSchemaEntries [("strict", JVal.bool true), ("type", JVal.str "object")]).lookup "type"
        = some (.str "object") := by
  refine ⟨cleanSchema_removes_banned_keys.1 _ (fun kvs h => by cases h), ?_, ?_⟩
  · rw [cleanSchema_removes_banned_keys.2.2 [("strict", JVal.bool true), ("type", JVal.str "object")] "strict"]
    simp [bannedKeys]
  · rw [cleanSchema_removes_banned_keys.2.2 [("strict", JVal.bool true), ("type", JVal.str "object")] "type"]
    simp only [bannedKeys, List.contains_cons]
    norm_num
    simp [List.lookup, cleanSchema]

/-! ### Transport retry (claims C1, C2) -/

/-- The tenacity wait after failed attempt `j + 1` equals the spec's
`min(60, 2 * 2^(N-1))` with `N = j + 1`: the `min=2` clamp never binds. -/
theorem waitExponential_eq (j : Nat) : waitExponential 2 2 60 (j + 1) = min 60 (2 * 2 ^ j) := by
  have h : 1 ≤ 2 ^ j := Nat.one_le_two_pow
  simp only [waitExponential, Nat.add_sub_cancel]
  omega

/-- Prepending the wait for attempt `a` to the waits for attempts from
`a + 1` gives the waits for attempts from `a`. -/
theorem wait_cons_range (w : Nat → Nat) (a n : Nat) :
    w a :: (List.range n).map (fun j => w (a + 1 + j)) =
      (List.range (n + 1)).map (fun j => w (a + j)) := by
  rw [List.range_succ_eq_map, List.map_cons, List.map_map]
  refine congrArg₂ _ (by simp) (List.map_congr_left ?_)
  intro x _
  simp only [Function.comp_apply]
  congr 1
  omega

/-- Behaviour of the retry loop when the first `n` attempts are rate-limited
and attempt `a + n` succeeds, for `n` below the remaining budget. -/
theorem runRetryAux_success_after (b : Nat → HttpResponse) (d : JVal) (n : Nat) :
    ∀ (a fuel : Nat), n < fuel →
    (∀ i, a ≤ i → i < a + n → makeApiRequest (b i) = .error .rateLimit) →
    makeApiRequest (b (a + n)) = .ok d →
    runRetryAux b a fuel =
      ((List.range n).map (fun j => waitExponential 2 2 60 (a + j)), .success d) := by
  induction n with
  | zero =>
    intro a fuel hnf hfail hsucc
    obtain ⟨f, rfl⟩ : ∃ f, fuel = f + 1 := ⟨fuel - 1, by omega⟩
    rw [Nat.add_zero] at hsucc
    simp [runRetryAux, hsucc]
  | succ n ih =>
    intro a fuel hnf hfail hsucc
    obtain ⟨f, rfl⟩ : ∃ f, fuel = f + 1 := ⟨fuel - 1, by omega⟩
    have hra : makeApiRequest (b a) = .error .rateLimit := hfail a le_rfl (by omega)
    have hf0 : (f == 0) = false := by simp; omega
    have hrec := ih (a + 1) f (by omega)
      (fun i h1 h2 => hfail i (by omega) (by omega))
      (by rw [show a + 1 + n = a + (n + 1) from by omega]; exact hsucc)
    simp only [runRetryAux, hra, hf0, Bool.false_eq_true, if_false, hrec]
    rw [wait_cons_range (waitExponential 2 2 60) a n]

/-- Behaviour of the retry loop when every attempt in the budget is
rate-limited: the loop stops with `fuel - 1` recorded waits and no further
attempt. -/
theorem runRetryAux_exhausted (b : Nat → HttpResponse) :
    ∀ (fuel a : Nat), 1 ≤ fuel →
    (∀ i, a ≤ i → i < a + fuel → makeApiRequest (b i) = .error .rateLimit) →
    runRetryAux b a fuel =
      ((List.range (fuel - 1)).map (fun j => waitExponential 2 2 60 (a + j)), .exhausted) := by
  intro fuel
  induction fuel with
  | zero => intro a h; omega
  | succ f ihf =>
    intro a _ hfail
    have hra : makeApiRequest (b a) = .error .rateLimit := hfail a le_rfl (by omega)
    by_cases hf : f = 0
    · subst hf
      simp [runRetryAux, hra]
    · have hf0 : (f == 0) = false := by simp [hf]
      have hrec := ihf (a + 1) (by omega) (fun i h1 h2 => hfail i (by omega) (by omega))
      simp only [runRetryAux, hra, hf0, Bool.false_eq_true, if_false, hrec]
      obtain ⟨g, rfl⟩ : ∃ g, f = g + 1 := ⟨f - 1, by omega⟩
      simp only [Nat.add_sub_cancel]
      rw [wait_cons_range (waitExponential 2 2 60) a g]

/-- The retry loop consults the behaviour only at attempts `a` to
`a + fuel - 1`. -/
theorem runRetryAux_congr (b b' : Nat → HttpResponse) :
    ∀ (fuel a : Nat),
    (∀ i, a ≤ i → i < a + fuel → b i = b' i) →
    runRetryAux b a fuel = runRetryAux b' a fuel := by
  intro fuel
  induction fuel with
  | zero => intro a _; rfl
  | succ f ihf =>
    intro a hbb
    have hba : b a = b' a := hbb a le_rfl (by omega)
    have hrec := ihf (a + 1) (fun i h1 h2 => hbb i (by omega) (by omega))
    simp only [runRetryAux, hba, hrec]

/-- Claim C1: under `RateLimitSignal`, the transport call is retried up to 5
attempts in total, the delay before retry `N` being `min(60, 2 * 2^(N-1))`
(so four consecutive throttles record delays 2, 4, 8, 16); a succeeding
attempt returns its result, and after 5 rate-limited attempts the call fails
with the delays 2, 4, 8, 16 recorded and no 6th attempt consulted. -/
theorem retry_backoff_policy :
    (∀ (b : Nat → HttpResponse) (n : Nat) (d : JVal), n ≤ 4 →
      (∀ i, 1 ≤ i → i ≤ n → makeApiRequest (b i) = .error .rateLimit) →
      makeApiRequest (b (n + 1)) = .ok d →
      makeApiRequestWithRetry b =
        ((List.range n).map (fun j => min 60 (2 * 2 ^ j)), .success d))
    ∧ (∀ b : Nat → HttpResponse,
      (∀ i, 1 ≤ i → i ≤ 5 → makeApiRequest (b i) = .error .rateLimit) →
      makeApiRequestWithRetry b = ([2, 4, 8, 16], .exhausted))
    ∧ (∀ b b' : Nat → HttpResponse, (∀ i, i ≤ 5 → b i = b' i) →
      makeApiRequestWithRetry b = makeApiRequestWithRetry b') := by
  refine ⟨?_, ?_, ?_⟩
  · intro b n d hn hfail hsucc
    have h := runRetryAux_success_after b d n 1 5 (by omega)
      (fun i h1 h2 => hfail i h1 (by omega))
      (by rw [Nat.add_comm 1 n]; exact hsucc)
    rw [makeApiRequestWithRetry, h]
    refine congrArg₂ _ (List.map_congr_left ?_) rfl
    intro j _
    rw [show 1 + j = j + 1 from by omega, waitExponential_eq]
  · intro b hfail
    have h := runRetryAux_exhausted b 5 1 (by omega) (fun i h1 h2 => hfail i h1 (by omega))
    rw [makeApiRequestWithRetry, h]
    refine congrArg₂ _ ?_ rfl
    decide
  · intro b b' hbb
    exact runRetryAux_congr b b' 5 1 (fun i h1 h2 => hbb i (by omega))

/-- Witness for `retry_backoff_policy`: the stub throttled on attempts 1–4
and succeeding on attempt 5 yields the success result with recorded delays
2, 4, 8, 16. -/
theorem retry_backoff_policy_witness :
    makeApiRequestWithRetry retryStub = ([2, 4, 8, 16], .success (.obj [])) := by
  have h := retry_backoff_policy.1 retryStub 4 (.obj []) (by omega)
    (fun i h1 h2 => by simp [retryStub, h2, makeApiRequest])
    (by rfl)
  rw [show (List.range 4).map (fun j => min 60 (2 * 2 ^ j)) = [2, 4, 8, 16] from by decide] at h
  exact h

/-- Claim C2: the transport step turns status 429 into `RateLimitError` (no
data is returned), and any other 4xx/5xx status into an `HTTPError` that
propagates through the retry wrapper at once — no delay recorded, no second
attempt. -/
theorem transport_error_classification :
    (∀ resp : HttpResponse, resp.status = 429 → makeApiRequest resp = .error .rateLimit)
    ∧ (∀ resp : HttpResponse, 400 ≤ resp.status → resp.status < 600 → resp.status ≠ 429 →
        makeApiRequest resp = .error (.httpStatus resp.status))
    ∧ (∀ b : Nat → HttpResponse, 400 ≤ (b 1).status → (b 1).status < 600 → (b 1).status ≠ 429 →
        makeApiRequestWithRetry b = ([], .failure (.httpStatus (b 1).status))) := by
  have h429 : ∀ resp : HttpResponse, resp.status = 429 → makeApiRequest resp = .error .rateLimit := by
    intro resp h
    simp [makeApiRequest, h]
  have herr : ∀ resp : HttpResponse, 400 ≤ resp.status → resp.status < 600 → resp.status ≠ 429 →
      makeApiRequest resp = .error (.httpStatus resp.status) := by
    intro resp h1 h2 h3
    have hne : (resp.status == 429) = false := by simp [h3]
    simp [makeApiRequest, hne, h1, h2]
  refine ⟨h429, herr, ?_⟩
  intro b h1 h2 h3
  have hb := herr (b 1) h1 h2 h3
  rw [makeApiRequestWithRetry]
  simp [runRetryAux, hb]

/-- Witness for `transport_error_classification` at status 429 (with a body
present) and at status 500. -/
theorem transport_error_classification_witness :
    makeApiRequest ⟨429, some (.str "partial")⟩ = .error .rateLimit
    ∧ makeApiRequest ⟨500, none⟩ = .error (.httpStatus 500)
    ∧ makeApiRequestWithRetry (fun _ => ⟨500, none⟩) = ([], .failure (.httpStatus 500)) :=
  ⟨transport_error_classification.1 ⟨429, some (.str "partial")⟩ rfl,
   transport_error_classification.2.1 ⟨500, none⟩ (by decide) (by decide) (by decide),
   transport_error_classification.2.2 (fun _ => ⟨500, none⟩) (by decide) (by decide) (by decide)⟩

/-! ### Message conversion (claims C4, C10) -/

/-- The message loop in closed form: the final `system_instruction` is the
last system content (falling back to the incoming value), and the contents
list extends the accumulator with one entry per mapped non-system message. -/
theorem convertMessagesAux_eq (msgs : List LLMMessage) :
    ∀ (sys : Option String) (acc : List GeminiContent),
    convertMessagesAux sys acc msgs =
      ((systemContents msgs).getLast?.or sys, acc ++ msgs.filterMap nonSystemEntry) := by
  induction msgs with
  | nil =>
    intro sys acc
    simp [convertMessagesAux, systemContents]
  | cons m rest ih =>
    intro sys acc
    cases m with
    | system c =>
      rw [show convertMessagesAux sys acc (.system c :: rest)
          = convertMessagesAux (some c) acc rest from rfl]
      rw [ih (some c) acc]
      rw [show systemContents (.system c :: rest) = c :: systemContents rest from rfl]
      rw [List.getLast?_cons]
      rw [show (LLMMessage.system c :: rest).filterMap nonSystemEntry
          = rest.filterMap nonSystemEntry from by simp [nonSystemEntry]]
      cases h : (systemContents rest).getLast? <;> simp [h]
    | user content =>
      cases content with
      | text s =>
        rw [show convertMessagesAux sys acc (.user (.text s) :: rest)
            = convertMessagesAux sys (acc ++ [⟨"user", s⟩]) rest from rfl]
        rw [ih]
        simp [systemContents, nonSystemEntry]
      | multi items =>
        rw [show convertMessagesAux sys acc (.user (.multi items) :: rest)
            = convertMessagesAux sys
                (acc ++ [⟨"user", String.join (items.filterMap userItemText)⟩]) rest from rfl]
        rw [ih]
        simp [systemContents, nonSystemEntry]
    | assistant content =>
      cases content with
      | text s =>
        rw [show convertMessagesAux sys acc (.assistant (.text s) :: rest)
            = convertMessagesAux sys (acc ++ [⟨"model", s⟩]) rest from rfl]
        rw [ih]
        simp [systemContents, nonSystemEntry]
      | functionCalls =>
        rw [show convertMessagesAux sys acc (.assistant .functionCalls :: rest)
            = convertMessagesAux sys acc rest from rfl]
        rw [ih sys acc]
        simp [systemContents, nonSystemEntry]
    | functionExecutionResult results =>
      rw [show convertMessagesAux sys acc (.functionExecutionResult results :: rest)
          = convertMessagesAux sys acc rest from rfl]
      rw [ih sys acc]
      simp [systemContents, nonSystemEntry]

/-- Claim C4 counterexample: a two-message conversation whose tool-result
message contributes no entry to the request payload — the payload contents
hold only the user message, so not every one of the four roles is mapped. -/
theorem create_payload_drops_tool_results :
    toolResultMessages.length = 2
    ∧ (convertMessages toolResultMessages).2 = [⟨"user", "hi"⟩] := by
  exact ⟨rfl, rfl⟩

/-- Claim C4 (amended): `create` maps system messages into the dedicated
instruction channel, and user messages and string-content assistant messages
into the payload contents, in order; tool-result messages and function-call
assistant messages are omitted from the payload (`nonSystemEntry` is `none`
exactly on those and on system messages). -/
theorem create_payload_role_mapping (msgs : List LLMMessage) :
    (convertMessages msgs).2 = msgs.filterMap nonSystemEntry
    ∧ (∀ s, nonSystemEntry (.user (.text s)) = some ⟨"user", s⟩)
    ∧ (∀ s, nonSystemEntry (.assistant (.text s)) = some ⟨"model", s⟩)
    ∧ (∀ rs, nonSystemEntry (.functionExecutionResult rs) = none) := by
  refine ⟨?_, fun s => rfl, fun s => rfl, fun rs => rfl⟩
  rw [show convertMessages msgs = convertMessagesAux none [] msgs from rfl]
  rw [convertMessagesAux_eq msgs none []]
  simp

/-- Claim C10: with more than one system message in the input, the dedicated
system instruction is the content of the last system message, and no content
entry of the payload derives from any system message (all earlier system
messages are omitted entirely). -/
theorem system_instruction_last_wins (msgs : List LLMMessage)
    (h : 2 ≤ (systemContents msgs).length) :
    (convertMessages msgs).1 = (systemContents msgs).getLast?
    ∧ (convertMessages msgs).2 = msgs.filterMap nonSystemEntry
    ∧ (∀ c, nonSystemEntry (.system c) = none) := by
  refine ⟨?_, ?_, fun c => rfl⟩
  · rw [show convertMessages msgs = convertMessagesAux none [] msgs from rfl]
    rw [convertMessagesAux_eq msgs none []]
    simp
  · rw [show convertMessages msgs = convertMessagesAux none [] msgs from rfl]
    rw [convertMessagesAux_eq msgs none []]
    simp

/-- Witness for `system_instruction_last_wins` on a conversation with two
system messages: the instruction channel holds the second one, and the
contents hold only the user entry. -/
theorem system_instruction_last_wins_witness :
    (convertMessages twoSystemMessages).1 = some "second instruction"
    ∧ (convertMessages twoSystemMessages).2 = [⟨"user", "hi"⟩] := by
  have h := system_instruction_last_wins twoSystemMessages (by decide)
  exact ⟨by rw [h.1]; rfl, by rw [h.2.1]; rfl⟩

/-! ### Response parsing (claim C6) -/

/-- Bind on a successful `Except` computes the continuation. -/
theorem exceptBindOk {ε α β : Type} (x : α) (f : α → Except ε β) :
    (Except.ok x >>= f) = f x := rfl

/-- Bind on a failed `Except` keeps the error. -/
theorem exceptBindError {ε α β : Type} (e : ε) (f : α → Except ε β) :
    ((Except.error e : Except ε α) >>= f) = .error e := rfl

/-- Pure of `Except` is `ok`. -/
theorem exceptPure {ε α : Type} (x : α) : (pure x : Except ε α) = .ok x := rfl

/-- An `isOk` computation has a success value. -/
theorem except_exists_ok {ε α : Type} (e : Except ε α) (h : e.isOk = true) :
    ∃ r, e = .ok r := by
  cases e with
  | ok a => exact ⟨a, rfl⟩
  | error b => simp [Except.isOk, Except.toBool] at h

/-- A positive `any`-key test on a dict yields a successful lookup. -/
theorem lookup_of_any (kvs : List (String × JVal)) (k : String)
    (h : kvs.any (fun kv => kv.1 == k) = true) : ∃ v, kvs.lookup k = some v := by
  induction kvs with
  | nil => simp at h
  | cons hd tl ih =>
    obtain ⟨k', v'⟩ := hd
    by_cases hk : k = k'
    · subst hk
      exact ⟨v', by simp [List.lookup]⟩
    · have hk1 : (k' == k) = false := by simp [Ne.symm hk]
      have hk2 : (k == k') = false := by simp [hk]
      simp only [List.any_cons, hk1, Bool.false_or] at h
      obtain ⟨v, hv⟩ := ih h
      exact ⟨v, by simp [List.lookup, hk2, hv]⟩

/-- A successful lookup makes the `any`-key test positive. -/
theorem any_of_lookup (kvs : List (String × JVal)) (k : String) (v : JVal)
    (h : kvs.lookup k = some v) : kvs.any (fun kv => kv.1 == k) = true := by
  induction kvs with
  | nil => simp [List.lookup] at h
  | cons hd tl ih =>
    obtain ⟨k', v'⟩ := hd
    by_cases hk : k = k'
    · subst hk
      simp [List.any_cons]
    · have hk2 : (k == k') = false := by simp [hk]
      simp only [List.lookup, hk2] at h
      simp [List.any_cons, ih h]

/-- The function-call loop succeeds on a list of well-shaped parts. -/
theorem collectToolCalls_ok : ∀ parts : List JVal, parts.all wellFormedPart = true →
    ∃ tcs, collectToolCalls parts = .ok tcs := by
  intro parts
  induction parts with
  | nil => exact fun _ => ⟨[], rfl⟩
  | cons p rest ih =>
    intro h
    rw [List.all_cons, Bool.and_eq_true] at h
    obtain ⟨hp, hrest⟩ := h
    obtain ⟨tcs, htcs⟩ := ih hrest
    cases p with
    | obj pkvs =>
      cases hl : pkvs.lookup "functionCall" with
      | none =>
        have hany : (pkvs.any fun kv => kv.1 == "functionCall") = false := by
          by_contra hx
          rw [Bool.not_eq_false] at hx
          obtain ⟨v, hv⟩ := lookup_of_any _ _ hx
          rw [hl] at hv
          cases hv
        exact ⟨tcs, by simp [collectToolCalls, containsItem, hany, htcs,
          exceptBindOk, exceptPure]⟩
      | some fcv =>
        simp only [wellFormedPart] at hp
        rw [hl] at hp
        cases fcv with
        | obj fkvs =>
          simp only [Bool.and_eq_true, Option.isSome_iff_exists] at hp
          obtain ⟨⟨nv, hnv⟩, av, hav⟩ := hp
          have hany : (pkvs.any fun kv => kv.1 == "functionCall") = true :=
            any_of_lookup _ _ _ hl
          exact ⟨⟨nv, av⟩ :: tcs, by simp [collectToolCalls, containsItem, hany, getKey,
            hl, hnv, hav, htcs, exceptBindOk, exceptPure]⟩
        | null => simp at hp
        | bool b => simp at hp
        | num n => simp at hp
        | str s => simp at hp
        | arr xs => simp at hp
    | null => simp [wellFormedPart] at hp
    | bool b => simp [wellFormedPart] at hp
    | num n => simp [wellFormedPart] at hp
    | str s => simp [wellFormedPart] at hp
    | arr xs => simp [wellFormedPart] at hp

/-- The parsing block succeeds on every well-formed response. -/
theorem parseBody_ok_of_wellFormed (data : JVal) (h : wellFormedResponse data = true) :
    ∃ r, parseBody data = .ok r := by
  cases data with
  | null => simp [wellFormedResponse] at h
  | bool b => simp [wellFormedResponse] at h
  | num n => simp [wellFormedResponse] at h
  | str s => simp [wellFormedResponse] at h
  | arr xs => simp [wellFormedResponse] at h
  | obj dkvs =>
    simp only [wellFormedResponse, Bool.and_eq_true] at h
    obtain ⟨h1, h2⟩ := h
    cases hc : dkvs.lookup "candidates" with
    | none => rw [hc] at h1; simp at h1
    | some cval =>
      rw [hc] at h1
      cases cval
      case arr cands =>
        cases cands with
        | nil => simp at h1
        | cons c cs =>
          cases c
          case obj ckvs =>
            simp only [Bool.and_eq_true] at h1
            obtain ⟨hcont, hfin⟩ := h1
            cases hct : ckvs.lookup "content" with
            | none => rw [hct] at hcont; simp at hcont
            | some ctv =>
              rw [hct] at hcont
              cases ctv
              case obj contentKvs =>
                simp only [] at hcont
                cases hpt : contentKvs.lookup "parts" with
                | none => rw [hpt] at hcont; simp at hcont
                | some pv =>
                  rw [hpt] at hcont
                  cases pv
                  case arr parts =>
                    cases parts with
                    | nil => simp at hcont
                    | cons p ps =>
                      simp only [] at hcont
                      obtain ⟨tcs, htcs⟩ := collectToolCalls_ok (p :: ps) hcont
                      have hcont' := hcont
                      rw [List.all_cons, Bool.and_eq_true] at hcont'
                      obtain ⟨hp0, _⟩ := hcont'
                      have hfr : ∃ sv, (ckvs.lookup "finishReason").getD (.str "STOP")
                          = .str sv := by
                        cases hF : ckvs.lookup "finishReason" with
                        | none => exact ⟨"STOP", by simp⟩
                        | some fv =>
                          rw [hF] at hfin
                          cases fv
                          case str s => exact ⟨s, by simp⟩
                          all_goals simp at hfin
                      have hus : ∃ ukvs, (dkvs.lookup "usageMetadata").getD (.obj [])
                          = .obj ukvs := by
                        cases hU : dkvs.lookup "usageMetadata" with
                        | none => exact ⟨[], by simp⟩
                        | some uv =>
                          rw [hU] at h2
                          cases uv
                          case obj ukvs => exact ⟨ukvs, by simp⟩
                          all_goals simp at h2
                      obtain ⟨sv, hsv⟩ := hfr
                      obtain ⟨ukvs, hukvs⟩ := hus
                      cases p
                      case obj ppkvs =>
                        by_cases hat : (ppkvs.any fun kv => kv.1 == "text") = true
                        · obtain ⟨tv, htv⟩ := lookup_of_any ppkvs "text" hat
                          refine except_exists_ok _ ?_
                          simp only [parseBody, getKey, getIndex, getDefault, containsItem,
                            pyIter, finishReasonOf, exceptBindOk, exceptPure, hc, hct, hpt,
                            htv, htcs, hsv, hukvs, hat, List.getElem?_cons_zero,
                            Except.isOk, Except.toBool, if_true]
                        · rw [Bool.not_eq_true] at hat
                          refine except_exists_ok _ ?_
                          simp only [parseBody, getKey, getIndex, getDefault, containsItem,
                            pyIter, finishReasonOf, exceptBindOk, exceptPure, hc, hct, hpt,
                            htcs, hsv, hukvs, hat, List.getElem?_cons_zero,
                            Except.isOk, Except.toBool, Bool.false_eq_true, if_false]
                      all_goals simp [wellFormedPart] at hp0
                  all_goals simp at hcont
              all_goals simp at hcont
          all_goals simp at h1
      all_goals simp at h1

/-- Claim C6: a success payload missing the expected top-level `candidates`
field makes `create` raise the ProtocolError (ValueError), whose diagnostics
carry the raw payload, and no CreateResult is produced; every raised
ProtocolError carries the raw payload; and every well-formed payload parses
into a CreateResult with no ProtocolError. -/
theorem parse_missing_fields_protocol_error :
    (∀ kvs : List (String × JVal), kvs.lookup "candidates" = none →
      parseResponse (.obj kvs) = .protocolError ⟨.obj kvs, .keyError "candidates"⟩)
    ∧ (∀ (data : JVal) (e : ProtocolError), parseResponse data = .protocolError e →
        e.loggedPayload = data)
    ∧ (∀ data : JVal, wellFormedResponse data = true →
        ∃ r, parseResponse data = .ok r) := by
  refine ⟨?_, ?_, ?_⟩
  · intro kvs hk
    have hb : parseBody (.obj kvs) = .error (.keyError "candidates") := by
      simp only [parseBody, getKey, hk, exceptBindError]
    simp [parseResponse, hb]
  · intro data e h
    unfold parseResponse at h
    cases hb : parseBody data with
    | ok r => rw [hb] at h; simp only [] at h; cases h
    | error pe =>
      rw [hb] at h
      cases pe with
      | keyError k =>
        simp only [] at h
        injection h with h2
        rw [← h2]
      | indexError =>
        simp only [] at h
        injection h with h2
        rw [← h2]
      | typeError => simp only [] at h; cases h
      | attributeError => simp only [] at h; cases h
  · intro data hwf
    obtain ⟨r, hr⟩ := parseBody_ok_of_wellFormed data hwf
    exact ⟨r, by simp [parseResponse, hr]⟩

/-- Witness for `parse_missing_fields_protocol_error`: a payload without
`candidates` raises the ProtocolError carrying exactly that payload, and
`goodResponse` parses with no error. -/
theorem parse_missing_fields_protocol_error_witness :
    parseResponse (.obj [("foo", .null)])
      = .protocolError ⟨.obj [("foo", .null)], .keyError "candidates"⟩
    ∧ ∃ r, parseResponse goodResponse = .ok r :=
  ⟨parse_missing_fields_protocol_error.1 [("foo", .null)] rfl,
   parse_missing_fields_protocol_error.2.2 goodResponse rfl⟩

/-! ### Usage counters and streaming (claims C8, C9) -/

/-- Claim C8 counterexample: a successful `create` returns usage
(5, 7) from the backend, yet the client's accumulated totals reported by
`total_usage()` are still (0, 0), not (0+5, 0+7): the counters are not
updated by `create`. -/
theorem usage_counters_static_counterexample :
    (create initTotalUsage simpleMessages [] okBehavior).1 = .ok goodResult
    ∧ goodResult.usage = ⟨.num 5, .num 7⟩
    ∧ totalUsage (create initTotalUsage simpleMessages [] okBehavior).2 = ⟨.num 0, .num 0⟩
    ∧ totalUsage (create initTotalUsage simpleMessages [] okBehavior).2
        ≠ (⟨.num 5, .num 7⟩ : RequestUsage) := by
  refine ⟨rfl, rfl, rfl, fun h => ?_⟩
  rw [show totalUsage (create initTotalUsage simpleMessages [] okBehavior).2
      = (⟨.num 0, .num 0⟩ : RequestUsage) from rfl] at h
  injection h with h1 h2
  injection h1 with h3
  exact absurd h3 (by decide)

/-- Claim C8 (amended): `create` and `create_stream` never modify the
client's usage counters, and `total_usage()`/`actual_usage()` always report
the counter value set at construction — `RequestUsage(0, 0)` — regardless of
completed calls. -/
theorem usage_counters_never_updated (st : RequestUsage) (msgs : List LLMMessage)
    (tools : List ToolSpec) (behavior : GeminiPayload → Nat → HttpResponse) :
    (create st msgs tools behavior).2 = st
    ∧ (create_stream st msgs tools behavior).2 = st
    ∧ totalUsage st = st ∧ actualUsage st = st
    ∧ initTotalUsage = ⟨.num 0, .num 0⟩ := by
  have hc : (create st msgs tools behavior).2 = st := by
    simp only [create]
    split
    · split <;> rfl
    · rfl
    · rfl
  refine ⟨hc, ?_, rfl, rfl, rfl⟩
  unfold create_stream
  split
  all_goals rename_i heq
  all_goals rw [heq] at hc
  all_goals exact hc

/-- Claim C9: whenever the non-streaming `create` succeeds with result `r`,
`create_stream` gathers that same full result and emits exactly one chunk,
whose content equals `r.content`, leaving the client state as `create` left
it (no partial emission precedes the full result). -/
theorem create_stream_single_chunk (st : RequestUsage) (msgs : List LLMMessage)
    (tools : List ToolSpec) (behavior : GeminiPayload → Nat → HttpResponse)
    (r : CreateResult) (st' : RequestUsage)
    (h : create st msgs tools behavior = (.ok r, st')) :
    create_stream st msgs tools behavior = (.chunks [r.content], st')
    ∧ ([r.content] : List JVal).length = 1 := by
  refine ⟨?_, rfl⟩
  unfold create_stream
  rw [h]

/-- Witness for `create_stream_single_chunk` on the stub backend. -/
theorem create_stream_single_chunk_witness :
    create_stream initTotalUsage simpleMessages [] okBehavior
      = (.chunks [goodResult.content], initTotalUsage) :=
  (create_stream_single_chunk initTotalUsage simpleMessages [] okBehavior goodResult
    initTotalUsage rfl).1

/-! ### Evidence search fail-soft (claim C7) -/

/-- Claim C7: the evidence-search capability never raises; on a transport
error, an HTTP error status, or an unparseable body it returns an
`EvidencePack` with the same query, no items and `total_items = 0`. -/
theorem evidence_search_fails_soft (q : String) (o : RagOutcome)
    (h : o = .transportError
      ∨ (∃ s b, o = .response s b ∧ 400 ≤ s ∧ s < 600)
      ∨ (∃ s, o = .response s none)) :
    retrieveLegalDocuments q o = ⟨q, [], 0⟩ ∧ ragSearch q o = ⟨q, [], 0⟩ := by
  have hr : ragSearch q o = ⟨q, [], 0⟩ := by
    rcases h with rfl | ⟨s, b, rfl, h1, h2⟩ | ⟨s, rfl⟩
    · rfl
    · have hi : ragSearchInner q (.response s b) = .error (.httpStatus s) := by
        simp [ragSearchInner, h1, h2]
      unfold ragSearch
      rw [hi]
    · by_cases hs : 400 ≤ s ∧ s < 600
      · have hi : ragSearchInner q (.response s none) = .error (.httpStatus s) := by
          simp [ragSearchInner, hs.1, hs.2]
        unfold ragSearch
        rw [hi]
      · have hi : ragSearchInner q (.response s none) = .error .jsonDecode := by
          simp [ragSearchInner, hs]
        unfold ragSearch
        rw [hi]
  exact ⟨hr, hr⟩

/-- Witness for `evidence_search_fails_soft` on an HTTP 500 with an
unparseable body. -/
theorem evidence_search_fails_soft_witness :
    retrieveLegalDocuments "thu hồi đất" (.response 500 none)
      = ⟨"thu hồi đất", [], 0⟩ :=
  (evidence_search_fails_soft "thu hồi đất" (.response 500 none)
    (Or.inr (Or.inl ⟨500, none, rfl, by omega, by omega⟩))).1

/-! ### Phase-2 seed task (claim C3) -/

set_option maxRecDepth 8192 in
/-- Claim C3 evaluation at a failing input: for the hard-coded query, the
task seeding the synthesis phase equals the fixed `synthesis_task` template —
it contains the original query, but none of the phase-1 transcript contents
appear in it, contradicting the claim that every phase-1 message content is
injected into phase 2's seed task. -/
theorem synthesis_seed_omits_phase1_transcript :
    (mainSeedTasks "Khoáng sản nhóm III" phase1Sample).2
      = synthesisTask "Khoáng sản nhóm III"
    ∧ strContains (mainSeedTasks "Khoáng sản nhóm III" phase1Sample).2
        "Khoáng sản nhóm III" = true
    ∧ (phase1Sample.all fun m =>
        strContains (mainSeedTasks "Khoáng sản nhóm III" phase1Sample).2 m) = false := by
  refine ⟨rfl, ?_, ?_⟩
  · decide
  · decide

end RagSearch
